import Mathlib

/-!
Verification of the frawk bytecode interpreter core (`src/interp.rs`) against
its natural-language specification. The definitions below are a shallow
embedding of `Interp::run` and the helper functions it calls. Machine
integers (`i64`, `u64`, `usize`) are modelled as `Int`/`Nat` with explicit
two's-complement wrap where the Rust release-mode semantics wraps, and an
explicit panic outcome where Rust panics unconditionally (division/remainder
checks). `f64` registers are modelled by `Rat`; the claims settled here use
only totality and determinism of float operations, never IEEE-754 rounding.
Runtime components that live outside `interp.rs` (the `runtime` module) are
modelled from the spec and marked as such in their doc comments.
-/

namespace Frawk

/-- Model of Rust `f64` for the purposes of these claims (totality and
determinism only; no IEEE-754 rounding is relied upon). -/
abbrev FFloat := Rat

/-- Model of the byte-string type `Str`. Characters stand in for bytes; the
claims below operate on ASCII examples where the two coincide. -/
abbrev FStr := String

/-- Interpret an arbitrary integer as a signed 64-bit value: the unique
representative in `[-2^63, 2^63)` congruent mod `2^64` (two's complement). -/
def wrap64 (z : Int) : Int := (z + 2 ^ 63) % 2 ^ 64 - 2 ^ 63

/-- Rust `as u64` / `as usize` (64-bit targets) on an `i64` value: reduce
mod `2^64` into `[0, 2^64)`. -/
def castU64 (i : Int) : Nat := (i % 2 ^ 64).toNat

/-- Rust `as i64` on a `u64` value: reinterpret the bits, i.e. wrap. -/
def u64AsI64 (n : Nat) : Int := wrap64 n

/-- Rust release-mode `i64` addition: wraps on overflow. -/
def rustAdd (l r : Int) : Int := wrap64 (l + r)

/-- Rust release-mode `i64` subtraction: wraps on overflow. -/
def rustSub (l r : Int) : Int := wrap64 (l - r)

/-- Rust release-mode `i64` multiplication: wraps on overflow. -/
def rustMul (l r : Int) : Int := wrap64 (l * r)

/-- Rust release-mode `i64` negation: wraps on overflow. -/
def rustNeg (i : Int) : Int := wrap64 (-i)

/-- Rust `i64` remainder `l % r`: truncated remainder, but the operation
panics (in every build profile) when `r = 0`, and on the overflowing pair
`i64::MIN % -1`. `none` is the panic. -/
def rustRem (l r : Int) : Option Int :=
  if r = 0 then none
  else if l = -(2 ^ 63) ∧ r = -1 then none
  else some (Int.tmod l r)

/-- Rust `f64` `%` under the rational model: total (IEEE `fmod` never traps;
the NaN results at `r = 0` are collapsed to `0` here). -/
def floatRem (l r : FFloat) : FFloat :=
  if r = 0 then 0 else l - r * ((l / r).floor : FFloat)

/-- Rust `f64` division under the rational model: total (IEEE division never
traps; `Rat` division by zero yields `0` where IEEE yields `±inf`/NaN). -/
def floatDiv (l r : FFloat) : FFloat := l / r

/-- Association-list model of the reference-counted runtime maps
(`IntMap`/`StrMap`): insertion-ordered key/value pairs. -/
abbrev AssocMap (κ α : Type) := List (κ × α)

/-- Lookup in an association map: first binding of the key, if any. -/
def mapGet {κ α : Type} [DecidableEq κ] : AssocMap κ α → κ → Option α
  | [], _ => none
  | (k', v) :: rest, k => if k = k' then some v else mapGet rest k

/-- Modelled from the spec: the pseudo-random generator (`rand::StdRng`) is a
"seedable generator whose current seed is observable"; it is modelled as a
deterministic 64-bit LCG state. The exact stream values are irrelevant to the
claims; only determinism and the `[0, 1)` output range are used. -/
structure RngState where
  state : Nat
deriving DecidableEq

/-- Modelled from the spec: `StdRng::seed_from_u64` builds the generator
state deterministically from the seed. -/
def seed_from_u64 (seed : Nat) : RngState := ⟨seed % 2 ^ 64⟩

/-- One advance of the modelled generator state. -/
def rngAdvance (s : Nat) : Nat :=
  (6364136223846793005 * s + 1442695040888963407) % 2 ^ 64

/-- Modelled from the spec: `rng.gen_range(0.0, 1.0)` returns a float in
`[0, 1)` and advances the generator deterministically. -/
def rngNext (r : RngState) : FFloat × RngState :=
  let s' := rngAdvance r.state
  (((s' % 2 ^ 53 : Nat) : FFloat) / 2 ^ 53, ⟨s'⟩)

/-- Modelled from the spec: the write side of the file I/O layer. `stdoutLog`
and `fileLog` record successfully written text (stdout, and
path/text/append-mode for named sinks). `outcomes` is the environment's
supply of per-write I/O results: each write consumes one outcome, `false`
being an I/O error (e.g. a broken pipe); an exhausted supply means success. -/
structure FileWrite where
  stdoutLog : List FStr
  fileLog : List (FStr × FStr × Bool)
  outcomes : List Bool
deriving DecidableEq

/-- Consume the next write outcome from the environment. -/
def FileWrite.nextOutcome (w : FileWrite) : Bool × FileWrite :=
  match w.outcomes with
  | [] => (true, w)
  | b :: rest => (b, { w with outcomes := rest })

/-- Modelled from the spec: `FileWrite::write_str_stdout` writes text to the
distinguished stdout sink; an I/O error is reported as `Except.error`. -/
def write_str_stdout (w : FileWrite) (s : FStr) : Except Unit FileWrite :=
  let (ok, w') := w.nextOutcome
  if ok then .ok { w' with stdoutLog := w'.stdoutLog ++ [s] } else .error ()

/-- Modelled from the spec: `FileWrite::write_str` writes text to the named
sink `path` (append or truncate mode); an I/O error is `Except.error`. -/
def write_str (w : FileWrite) (path s : FStr) (append : Bool) :
    Except Unit FileWrite :=
  let (ok, w') := w.nextOutcome
  if ok then .ok { w' with fileLog := w'.fileLog ++ [(path, s, append)] }
  else .error ()

/-- Modelled from the spec: the read side of the file I/O layer keeps a
current primary source (with its filename) and the queue of remaining input
filenames. -/
structure FileRead where
  current_filename : FStr
  queued : List FStr
deriving DecidableEq

/-- Modelled from the spec: `next_file` closes the current primary source and
advances to the next queued filename, if any. -/
def next_file (fr : FileRead) : FileRead :=
  match fr.queued with
  | [] => fr
  | f :: rest => ⟨f, rest⟩

/-- Modelled from the spec: `stdin_filename` reports the current primary
source's filename. -/
def stdin_filename (fr : FileRead) : FStr := fr.current_filename

/-- The built-in variables of `runtime::Variables` used by the embedded
opcodes (field/record separators, record counters, current filename). -/
structure Vars where
  fs : FStr
  ofs : FStr
  rs : FStr
  nf : Int
  nr : Int
  fnr : Int
  filename : FStr
deriving DecidableEq

/-- The mutable interpreter state outside of control flow: the typed register
banks (total maps from register index to value, reflecting the compiler's
in-bounds guarantee on register indices), the built-in variables, the random
source, and the file I/O layers. -/
structure MachState where
  ints : Nat → Int
  floats : Nat → FFloat
  strs : Nat → FStr
  mapsIntInt : Nat → AssocMap Int Int
  mapsIntFloat : Nat → AssocMap Int FFloat
  mapsIntStr : Nat → AssocMap Int FStr
  mapsStrInt : Nat → AssocMap FStr Int
  mapsStrFloat : Nat → AssocMap FStr FFloat
  mapsStrStr : Nat → AssocMap FStr FStr
  vars : Vars
  currentSeed : Nat
  rng : RngState
  writeFiles : FileWrite
  readFiles : FileRead

def getInt (st : MachState) (i : Nat) : Int := st.ints i
def getFloat (st : MachState) (i : Nat) : FFloat := st.floats i
def getStr (st : MachState) (i : Nat) : FStr := st.strs i
def getMapIntInt (st : MachState) (i : Nat) : AssocMap Int Int := st.mapsIntInt i
def getMapIntFloat (st : MachState) (i : Nat) : AssocMap Int FFloat := st.mapsIntFloat i
def getMapIntStr (st : MachState) (i : Nat) : AssocMap Int FStr := st.mapsIntStr i
def getMapStrInt (st : MachState) (i : Nat) : AssocMap FStr Int := st.mapsStrInt i
def getMapStrFloat (st : MachState) (i : Nat) : AssocMap FStr FFloat := st.mapsStrFloat i
def getMapStrStr (st : MachState) (i : Nat) : AssocMap FStr FStr := st.mapsStrStr i

def setInt (st : MachState) (i : Nat) (v : Int) : MachState :=
  { st with ints := Function.update st.ints i v }
def setFloat (st : MachState) (i : Nat) (v : FFloat) : MachState :=
  { st with floats := Function.update st.floats i v }
def setStr (st : MachState) (i : Nat) (v : FStr) : MachState :=
  { st with strs := Function.update st.strs i v }
def setMapIntStr (st : MachState) (i : Nat) (v : AssocMap Int FStr) : MachState :=
  { st with mapsIntStr := Function.update st.mapsIntStr i v }
def setMapStrStr (st : MachState) (i : Nat) (v : AssocMap FStr FStr) : MachState :=
  { st with mapsStrStr := Function.update st.mapsStrStr i v }

/-- The operand types of `compile::Ty` that can appear as a `(s)printf`
argument descriptor. -/
inductive Ty where
  | Int | Float | Str
  | MapIntInt | MapIntFloat | MapIntStr
  | MapStrInt | MapStrFloat | MapStrStr
  | IterInt | IterStr
deriving DecidableEq

/-- Scalar types are the only admissible `(s)printf` argument types. -/
def Ty.isScalar : Ty → Bool
  | .Int | .Float | .Str => true
  | _ => false

/-- A formatted argument (`runtime::FormatArg`): a scalar value. -/
inductive FormatArg where
  | I (i : Int)
  | F (f : FFloat)
  | S (s : FStr)
deriving DecidableEq

/-- `Interp::format_arg`: resolve one `(register, type)` argument descriptor
to a scalar value, or fail with the non-scalar type error. -/
def format_arg (st : MachState) (a : Nat × Ty) : Except String FormatArg :=
  match a.2 with
  | .Str => .ok (.S (getStr st a.1))
  | .Int => .ok (.I (getInt st a.1))
  | .Float => .ok (.F (getFloat st a.1))
  | _ => .error "non-scalar (s)printf argument type"

/-- The argument-collection loop of the `Sprintf`/`Printf` cases: format each
argument in order, propagating the first error. -/
def formatArgs (st : MachState) : List (Nat × Ty) → Except String (List FormatArg)
  | [] => .ok []
  | a :: rest =>
    match format_arg st a with
    | .error e => .error e
    | .ok x =>
      match formatArgs st rest with
      | .error e => .error e
      | .ok xs => .ok (x :: xs)

/-- Text rendering of one formatted argument. -/
def argText : FormatArg → FStr
  | .I i => toString i
  | .F f => toString f.num ++ "/" ++ toString f.den
  | .S s => s

/-- Modelled from the spec: `runtime::printf::printf` renders a format string
over the collected scalar arguments (minimal AWK `%`-directive family). The
rendering is total; the only format-time error in the spec's error model is
the non-scalar argument type, raised earlier by `format_arg`. -/
def renderFmt : List Char → List FormatArg → List Char
  | [], _ => []
  | '%' :: c :: rest, args =>
    if c = '%' then '%' :: renderFmt rest args
    else
      match args with
      | [] => renderFmt rest []
      | a :: args' => (argText a).toList ++ renderFmt rest args'
  | c :: rest, args => c :: renderFmt rest args

/-- Render a format string (see `renderFmt`). -/
def printfRender (fmt : FStr) (args : List FormatArg) : FStr :=
  (renderFmt fmt.toList args).asString

/-- Modelled from the spec: `Str::slice(from, to)` of the runtime string
layer returns the bytes in positions `[a, b)` (0-based, end exclusive); the
result is empty when `a ≥ b` and is cut off at the end of the string. -/
def strSlice (s : FStr) (a b : Nat) : FStr :=
  ((s.toList.drop a).take (b - a)).asString

/-- The `Substr` computation of `Interp::run`: clamp the 1-based start below
by 1 (`cmp::max(0, -1 + l)`, computed in wrapping `i64`), clamp the end above
by the length (`cmp::min(len, r)`), cast both with `as usize`, and slice. -/
def substrOp (base : FStr) (l r : Int) : FStr :=
  strSlice base (max 0 (rustAdd (-1) l)).toNat
    (castU64 (min (base.length : Int) r))

/-- Modelled from the spec (single-character literal separator): the pieces
of `cs` obtained by splitting at every occurrence of `sep`. -/
def splitChars (sep : Char) : List Char → List (List Char)
  | [] => [[]]
  | c :: rest =>
    match splitChars sep rest with
    | [] => if c = sep then [[], [c]] else [[c]]
    | h :: t => if c = sep then [] :: h :: t else (c :: h) :: t

/-- Modelled from the spec: the pieces of `s` under pattern `pat`, modelling
the regex split with literal single-character separators (the claims settled
here do not depend on regex syntax). -/
def splitPieces (pat s : FStr) : List FStr :=
  match pat.toList with
  | [sep] => (splitChars sep s.toList).map List.asString
  | _ => [s]

/-- Insert `pieces` into an (already cleared) integer-keyed map under the
consecutive keys `start, start+1, ...`. -/
def insertPiecesInt (start : Int) : List FStr → AssocMap Int FStr
  | [] => []
  | p :: rest => (start, p) :: insertPiecesInt (start + 1) rest

/-- Insert `pieces` into an (already cleared) string-keyed map under the
decimal renderings of the consecutive keys `start, start+1, ...`. -/
def insertPiecesStr (start : Int) : List FStr → AssocMap FStr FStr
  | [] => []
  | p :: rest => (toString start, p) :: insertPiecesStr (start + 1) rest

/-- Modelled from the spec: `RegexCache::split_regex_intmap` clears the
destination map, then inserts each piece of `s` under the keys `1..n`. -/
def split_to_map_int (pat s : FStr) : AssocMap Int FStr :=
  insertPiecesInt 1 (splitPieces pat s)

/-- Modelled from the spec: `RegexCache::split_regex_strmap` clears the
destination map, then inserts each piece of `s` under the keys `"1".."n"`. -/
def split_to_map_str (pat s : FStr) : AssocMap FStr FStr :=
  insertPiecesStr 1 (splitPieces pat s)

/-- `Interp::reset_file_vars`: zero the per-file record counter and load the
reader's current filename into the filename variable. -/
def reset_file_vars (st : MachState) : MachState :=
  { st with
    vars := { st.vars with fnr := 0, filename := stdin_filename st.readFiles } }

/-- The write performed by the `Printf` opcode: to the named sink when an
output destination is present, otherwise to stdout. -/
def printfWriteRes (st : MachState) (output : Option (Nat × Bool))
    (text : FStr) : Except Unit FileWrite :=
  match output with
  | some (outr, append) => write_str st.writeFiles (getStr st outr) text append
  | none => write_str_stdout st.writeFiles text

/-- The `Rand` opcode body: draw from the generator, store the float into
`dst`, keep the advanced generator. -/
def randOp (st : MachState) (dst : Nat) : MachState :=
  setFloat { st with rng := (rngNext st.rng).2 } dst (rngNext st.rng).1

/-- The `Srand` opcode body: reseed from the `seed` register (`as u64`),
record the new seed as current, and store the previous seed (`as i64`) into
`res`. -/
def srandOp (st : MachState) (res seed : Nat) : MachState :=
  let sv := castU64 (getInt st seed)
  setInt { st with rng := seed_from_u64 sv, currentSeed := sv } res
    (u64AsI64 st.currentSeed)

/-- The embedded subset of the `Instr` bytecode: every opcode the claims
refer to, with registers as bank indices. -/
inductive Instr where
  | StoreConstStr (sr : Nat) (s : FStr)
  | StoreConstInt (ir : Nat) (i : Int)
  | StoreConstFloat (fr : Nat) (f : FFloat)
  | AddInt (res l r : Nat)
  | MinusInt (res l r : Nat)
  | MulInt (res l r : Nat)
  | ModInt (res l r : Nat)
  | ModFloat (res l r : Nat)
  | Div (res l r : Nat)
  | NegInt (res i : Nat)
  | Substr (res base l r : Nat)
  | SplitInt (flds to_split arr pat : Nat)
  | SplitStr (flds to_split arr pat : Nat)
  | PrintStdout (txt : Nat)
  | Print (txt out : Nat) (append : Bool)
  | Sprintf (dst fmt : Nat) (args : List (Nat × Ty))
  | Printf (output : Option (Nat × Bool)) (fmt : Nat) (args : List (Nat × Ty))
  | LookupIntInt (res arr k : Nat)
  | LookupIntStr (res arr k : Nat)
  | LookupIntFloat (res arr k : Nat)
  | LookupStrInt (res arr k : Nat)
  | LookupStrStr (res arr k : Nat)
  | LookupStrFloat (res arr k : Nat)
  | ContainsIntInt (res arr k : Nat)
  | ContainsIntStr (res arr k : Nat)
  | ContainsIntFloat (res arr k : Nat)
  | ContainsStrInt (res arr k : Nat)
  | ContainsStrStr (res arr k : Nat)
  | ContainsStrFloat (res arr k : Nat)
  | Rand (dst : Nat)
  | Srand (res seed : Nat)
  | NextFile
  | JmpIf (cond : Nat) (lbl : Nat)
  | Jmp (lbl : Nat)
  | Call (func : Nat)
  | Ret
  | Halt

/-- A program: one instruction vector per function (`Vec<Vec<Instr>>`). -/
abbrev Prog := List (List Instr)

/-- The dispatch position and call stack of `Interp::run`: current function,
current instruction index, and the stack of `(function, return label)`
frames, over the machine state. -/
structure Config where
  curFn : Nat
  cur : Nat
  callStack : List (Nat × Nat)
  st : MachState

/-- The result of one dispatch step: continue at a new configuration, leave
the dispatch loop with a `Result`, or abort the process (a Rust panic). -/
inductive StepResult where
  | next (c : Config)
  | done (r : Except String Unit)
  | panic (msg : String)

/-- Fetch the current instruction. `Interp::run` reads it with
`get_unchecked` under the compiler's precondition that every function ends in
a terminal opcode; an out-of-range fetch is modelled as an abort. -/
def fetch (p : Prog) (c : Config) : Option Instr :=
  (p.getD c.curFn []).get? c.cur

/-- Fall through to the next instruction with an updated machine state. -/
def advance (c : Config) (st : MachState) : Config :=
  { c with cur := c.cur + 1, st := st }

/-- One iteration of the dispatch loop of `Interp::run`, for the embedded
instruction subset. Each arm is the direct translation of the corresponding
`match` arm of the source. -/
def step (p : Prog) (c : Config) : StepResult :=
  match fetch p c with
  | none => .panic "instruction index out of bounds"
  | some i =>
    match i with
    | .StoreConstStr sr s => .next (advance c (setStr c.st sr s))
    | .StoreConstInt ir v => .next (advance c (setInt c.st ir v))
    | .StoreConstFloat fr v => .next (advance c (setFloat c.st fr v))
    | .AddInt res l r =>
      .next (advance c (setInt c.st res (rustAdd (getInt c.st l) (getInt c.st r))))
    | .MinusInt res l r =>
      .next (advance c (setInt c.st res (rustSub (getInt c.st l) (getInt c.st r))))
    | .MulInt res l r =>
      .next (advance c (setInt c.st res (rustMul (getInt c.st l) (getInt c.st r))))
    | .ModInt res l r =>
      match rustRem (getInt c.st l) (getInt c.st r) with
      | none => .panic "attempt to calculate the remainder with a divisor of zero"
      | some v => .next (advance c (setInt c.st res v))
    | .ModFloat res l r =>
      .next (advance c (setFloat c.st res (floatRem (getFloat c.st l) (getFloat c.st r))))
    | .Div res l r =>
      .next (advance c (setFloat c.st res (floatDiv (getFloat c.st l) (getFloat c.st r))))
    | .NegInt res i =>
      .next (advance c (setInt c.st res (rustNeg (getInt c.st i))))
    | .Substr res base l r =>
      .next (advance c (setStr c.st res
        (substrOp (getStr c.st base) (getInt c.st l) (getInt c.st r))))
    | .SplitInt flds to_split arr pat =>
      let m' := split_to_map_int (getStr c.st pat) (getStr c.st to_split)
      let old_len := (getMapIntStr c.st arr).length
      let res := wrap64 ((m'.length : Int) - (old_len : Int))
      .next (advance c (setInt (setMapIntStr c.st arr m') flds res))
    | .SplitStr flds to_split arr pat =>
      let m' := split_to_map_str (getStr c.st pat) (getStr c.st to_split)
      let old_len := (getMapStrStr c.st arr).length
      let res := wrap64 ((m'.length : Int) - (old_len : Int))
      .next (advance c (setInt (setMapStrStr c.st arr m') flds res))
    | .PrintStdout txt =>
      match write_str_stdout c.st.writeFiles (getStr c.st txt) with
      | .error _ => .done (.ok ())
      | .ok w' => .next (advance c { c.st with writeFiles := w' })
    | .Print txt out append =>
      match write_str c.st.writeFiles (getStr c.st out) (getStr c.st txt) append with
      | .error _ => .done (.ok ())
      | .ok w' => .next (advance c { c.st with writeFiles := w' })
    | .Sprintf dst fmt args =>
      match formatArgs c.st args with
      | .error e => .done (.error e)
      | .ok fargs =>
        .next (advance c (setStr c.st dst (printfRender (getStr c.st fmt) fargs)))
    | .Printf output fmt args =>
      match formatArgs c.st args with
      | .error e => .done (.error e)
      | .ok fargs =>
        match printfWriteRes c.st output (printfRender (getStr c.st fmt) fargs) with
        | .error _ => .done (.ok ())
        | .ok w' => .next (advance c { c.st with writeFiles := w' })
    | .LookupIntInt res arr k =>
      .next (advance c (setInt c.st res
        ((mapGet (getMapIntInt c.st arr) (getInt c.st k)).getD 0)))
    | .LookupIntStr res arr k =>
      .next (advance c (setStr c.st res
        ((mapGet (getMapIntStr c.st arr) (getInt c.st k)).getD "")))
    | .LookupIntFloat res arr k =>
      .next (advance c (setFloat c.st res
        ((mapGet (getMapIntFloat c.st arr) (getInt c.st k)).getD 0)))
    | .LookupStrInt res arr k =>
      .next (advance c (setInt c.st res
        ((mapGet (getMapStrInt c.st arr) (getStr c.st k)).getD 0)))
    | .LookupStrStr res arr k =>
      .next (advance c (setStr c.st res
        ((mapGet (getMapStrStr c.st arr) (getStr c.st k)).getD "")))
    | .LookupStrFloat res arr k =>
      .next (advance c (setFloat c.st res
        ((mapGet (getMapStrFloat c.st arr) (getStr c.st k)).getD 0)))
    | .ContainsIntInt res arr k =>
      .next (advance c (setInt c.st res
        (if (mapGet (getMapIntInt c.st arr) (getInt c.st k)).isSome then 1 else 0)))
    | .ContainsIntStr res arr k =>
      .next (advance c (setInt c.st res
        (if (mapGet (getMapIntStr c.st arr) (getInt c.st k)).isSome then 1 else 0)))
    | .ContainsIntFloat res arr k =>
      .next (advance c (setInt c.st res
        (if (mapGet (getMapIntFloat c.st arr) (getInt c.st k)).isSome then 1 else 0)))
    | .ContainsStrInt res arr k =>
      .next (advance c (setInt c.st res
        (if (mapGet (getMapStrInt c.st arr) (getStr c.st k)).isSome then 1 else 0)))
    | .ContainsStrStr res arr k =>
      .next (advance c (setInt c.st res
        (if (mapGet (getMapStrStr c.st arr) (getStr c.st k)).isSome then 1 else 0)))
    | .ContainsStrFloat res arr k =>
      .next (advance c (setInt c.st res
        (if (mapGet (getMapStrFloat c.st arr) (getStr c.st k)).isSome then 1 else 0)))
    | .Rand dst => .next (advance c (randOp c.st dst))
    | .Srand res seed => .next (advance c (srandOp c.st res seed))
    | .NextFile =>
      .next (advance c (reset_file_vars
        { c.st with readFiles := next_file c.st.readFiles }))
    | .JmpIf cond lbl =>
      if getInt c.st cond ≠ 0 then .next { c with cur := lbl }
      else .next (advance c c.st)
    | .Jmp lbl => .next { c with cur := lbl }
    | .Call func =>
      .next ⟨func, 0, (c.curFn, c.cur + 1) :: c.callStack, c.st⟩
    | .Ret =>
      match c.callStack with
      | (g, l) :: rest => .next ⟨g, l, rest, c.st⟩
      | [] => .done (.ok ())
    | .Halt => .done (.ok ())

/-- The outcome of running the dispatch loop with a fuel bound. -/
inductive RunResult where
  | finished (r : Except String Unit)
  | panicked (msg : String)
  | outOfFuel

/-- The dispatch loop of `Interp::run`, fuelled: iterate `step` until a
terminal outcome or until the fuel runs out. -/
def run (p : Prog) : Nat → Config → RunResult
  | 0, _ => .outOfFuel
  | n + 1, c =>
    match step p c with
    | .next c' => run p n c'
    | .done r => .finished r
    | .panic m => .panicked m

/-- Modelled from the spec: the process exit status is 0 when the dispatch
loop returns success and nonzero on an uncaught runtime error. -/
def exitStatus : Except String Unit → Nat
  | .ok _ => 0
  | .error _ => 1

/-! ### Concrete machine states and programs used to instantiate the theorems -/

/-- A machine state with all banks zeroed, used to instantiate theorems at
concrete inputs. -/
def baseState : MachState where
  ints := fun _ => 0
  floats := fun _ => 0
  strs := fun _ => ""
  mapsIntInt := fun _ => []
  mapsIntFloat := fun _ => []
  mapsIntStr := fun _ => []
  mapsStrInt := fun _ => []
  mapsStrFloat := fun _ => []
  mapsStrStr := fun _ => []
  vars := ⟨" ", " ", "\n", 0, 0, 0, ""⟩
  currentSeed := 0
  rng := ⟨0⟩
  writeFiles := ⟨[], [], []⟩
  readFiles := ⟨"", []⟩

/-- A two-function program exercising `Call` and `Ret`, and a single `Ret`
on an empty stack. -/
def progCR : Prog := [[Instr.Call 1, Instr.Halt], [Instr.Ret]]

def progRet : Prog := [[Instr.Ret]]

/-- A state holding `1` in int register 1 and `0` in int register 2. -/
def stateModZero : MachState :=
  { baseState with ints := fun i => if i = 1 then 1 else 0 }

/-- A state holding `2^63 - 1` (i64::MAX) in int register 1 and `1` in int
register 2, so that `AddInt` overflows. -/
def stateOverflow : MachState :=
  { baseState with
    ints := fun i => if i = 1 then 2 ^ 63 - 1 else if i = 2 then 1 else 0 }

/-- A state whose next write outcome is an I/O error (broken pipe). -/
def stateBrokenPipe : MachState :=
  { baseState with
    strs := fun _ => "hi"
    writeFiles := ⟨[], [], [false]⟩ }

/-- A state mid-way through reading `"f1"`, with `"f2"` queued and a nonzero
per-file record count. -/
def stateReading : MachState :=
  { baseState with
    vars := ⟨" ", " ", "\n", 0, 7, 7, "f1"⟩
    readFiles := ⟨"f1", ["f2"]⟩ }

/-- A state with a one-entry int→int map in map register 0; the key 3 is
absent from it. -/
def stateLookup : MachState :=
  { baseState with mapsIntInt := fun i => if i = 0 then [((1 : Int), 10)] else [] }

/-- The stream of the first `n` floats produced by repeatedly executing the
`Rand` opcode body into float register `dst`, reading the register back after
each execution. -/
def randOutputs (st : MachState) (dst : Nat) : Nat → List FFloat
  | 0 => []
  | n + 1 => getFloat (randOp st dst) dst :: randOutputs (randOp st dst) dst n

/-- The substring described by the words of the spec (claim C6): the bytes
of `s` from position `max l 1` to position `min r (len s)`, 1-based and
inclusive at both ends, and the empty string when the clamped start exceeds
the clamped end. -/
def specSubstr (s : FStr) (l r : Int) : FStr :=
  if min r (s.length : Int) < max l 1 then ""
  else ((s.toList.drop ((max l 1).toNat - 1)).take
    (min r (s.length : Int) - max l 1 + 1).toNat).asString

/-- A state holding the format string `"x=%d"` in every string register. -/
def stateFmt : MachState := { baseState with strs := fun _ => "x=%d" }

/-- A `Sprintf` whose single argument has a map type. -/
def progSprintfBad : Prog :=
  [[Instr.Sprintf 0 1 [(0, Ty.MapIntInt)], Instr.Halt]]

/-- A `Sprintf` whose single argument is an int. -/
def progSprintfOk : Prog :=
  [[Instr.Sprintf 0 1 [(0, Ty.Int)], Instr.Halt]]

/-- A fresh state holding the seed `42` in int register 1. -/
def stateRngA : MachState :=
  { baseState with ints := fun i => if i = 1 then 42 else 0 }

/-- A state differing from `stateRngA` everywhere except the seed register:
other registers, the generator state and the recorded seed all differ. -/
def stateRngB : MachState :=
  { baseState with
    ints := fun i => if i = 1 then 42 else 5
    rng := ⟨999⟩
    currentSeed := 123 }

/-- Registers for a split: the subject `"a:b"` in str 0, the pattern `":"`
in str 1, and a pre-populated destination map of size 1 in map register 0. -/
def stateSplitPre : MachState :=
  { baseState with
    strs := fun i => if i = 0 then "a:b" else if i = 1 then ":" else ""
    mapsIntStr := fun i => if i = 0 then [((5 : Int), "x")] else [] }

/-- As `stateSplitPre` but with the destination map empty. -/
def stateSplitEmpty : MachState :=
  { baseState with
    strs := fun i => if i = 0 then "a:b" else if i = 1 then ":" else "" }

/-- `SplitInt` with result int register 2, subject str 0, destination map 0,
pattern str 1. -/
def progSplit : Prog := [[Instr.SplitInt 2 0 0 1, Instr.Halt]]

/-- Registers for `Substr`: base `"abc"` in str 0, `l = 1` in int 0 and the
negative end `r = -1` in int 1. -/
def stateSubstrNeg : MachState :=
  { baseState with
    strs := fun i => if i = 0 then "abc" else ""
    ints := fun i => if i = 0 then 1 else if i = 1 then -1 else 0 }

/-- Registers for `Substr`: base `"hello"` in str 0, `l = 2` in int 0 and
`r = 4` in int 1. -/
def stateSubstrOk : MachState :=
  { baseState with
    strs := fun i => if i = 0 then "hello" else ""
    ints := fun i => if i = 0 then 2 else if i = 1 then 4 else 0 }

/-- `Substr` with result str register 1, base str 0, start int 0, end int 1. -/
def progSubstr : Prog := [[Instr.Substr 1 0 0 1, Instr.Halt]]

/-! ### Basic facts about the embedded machine operations -/

theorem wrap64_emod (z : Int) : wrap64 z % 2 ^ 64 = z % 2 ^ 64 := by
  unfold wrap64; omega

theorem wrap64_lb (z : Int) : -(2 ^ 63) ≤ wrap64 z := by
  unfold wrap64; omega

theorem wrap64_ub (z : Int) : wrap64 z < 2 ^ 63 := by
  unfold wrap64; omega

theorem wrap64_eq_self (z : Int) (h₁ : -(2 ^ 63) ≤ z) (h₂ : z < 2 ^ 63) :
    wrap64 z = z := by
  unfold wrap64; omega

theorem getInt_setInt_self (st : MachState) (i : Nat) (v : Int) :
    getInt (setInt st i v) i = v := by
  simp [getInt, setInt]

theorem getFloat_setFloat_self (st : MachState) (i : Nat) (v : FFloat) :
    getFloat (setFloat st i v) i = v := by
  simp [getFloat, setFloat]

theorem getStr_setStr_self (st : MachState) (i : Nat) (v : FStr) :
    getStr (setStr st i v) i = v := by
  simp [getStr, setStr]

theorem getMapIntStr_setMapIntStr_self (st : MachState) (i : Nat)
    (v : AssocMap Int FStr) : getMapIntStr (setMapIntStr st i v) i = v := by
  simp [getMapIntStr, setMapIntStr]

theorem getMapStrStr_setMapStrStr_self (st : MachState) (i : Nat)
    (v : AssocMap FStr FStr) : getMapStrStr (setMapStrStr st i v) i = v := by
  simp [getMapStrStr, setMapStrStr]

/-! ### Claim C3: Call/Ret/Halt control transfer -/

/-- Claim C3: `Call(f)` pushes `(current function, current index + 1)` onto
the call stack and transfers control to instruction 0 of function `f`; `Ret`
pops the top frame and resumes at the saved position when the stack is
non-empty, and terminates the program successfully (the dispatch loop
returns `Ok`) when the stack is empty. -/
theorem call_ret_dispatch (p : Prog) (c : Config) :
    (∀ f, fetch p c = some (Instr.Call f) →
      step p c = .next ⟨f, 0, (c.curFn, c.cur + 1) :: c.callStack, c.st⟩) ∧
    (∀ g l rest, fetch p c = some Instr.Ret → c.callStack = (g, l) :: rest →
      step p c = .next ⟨g, l, rest, c.st⟩) ∧
    (fetch p c = some Instr.Ret → c.callStack = [] →
      step p c = .done (.ok ()) ∧
        ∀ n, run p (n + 1) c = .finished (.ok ())) := by
  refine ⟨?_, ?_, ?_⟩
  · intro f hf
    simp [step, hf]
  · intro g l rest hf hs
    simp [step, hf, hs]
  · intro hf hs
    have h1 : step p c = .done (.ok ()) := by simp [step, hf, hs]
    exact ⟨h1, fun n => by simp [run, h1]⟩

theorem call_ret_dispatch_witness :
    step progCR ⟨0, 0, [], baseState⟩ = .next ⟨1, 0, [(0, 1)], baseState⟩ ∧
    step progCR ⟨1, 0, [(0, 1)], baseState⟩ = .next ⟨0, 1, [], baseState⟩ ∧
    step progRet ⟨0, 0, [], baseState⟩ = .done (.ok ()) ∧
    run progRet 5 ⟨0, 0, [], baseState⟩ = .finished (.ok ()) :=
  ⟨(call_ret_dispatch progCR ⟨0, 0, [], baseState⟩).1 1 rfl,
   (call_ret_dispatch progCR ⟨1, 0, [(0, 1)], baseState⟩).2.1 0 1 [] rfl rfl,
   ((call_ret_dispatch progRet ⟨0, 0, [], baseState⟩).2.2 rfl rfl).1,
   ((call_ret_dispatch progRet ⟨0, 0, [], baseState⟩).2.2 rfl rfl).2 4⟩

/-! ### Claim C4: ModInt with a zero divisor aborts (code bug) -/

/-- Claim C4 (code bug): the spec declares every arithmetic opcode total,
but `ModInt` is compiled to the Rust `%` operator, which panics on a zero
divisor in every build profile. At `ints[l] = 1`, `ints[r] = 0` the
interpreter aborts instead of producing a result. -/
theorem modInt_zero_divisor_aborts :
    getInt stateModZero 1 = 1 ∧ getInt stateModZero 2 = 0 ∧
    step [[Instr.ModInt 0 1 2, Instr.Halt]] ⟨0, 0, [], stateModZero⟩ =
      .panic "attempt to calculate the remainder with a divisor of zero" ∧
    run [[Instr.ModInt 0 1 2, Instr.Halt]] 2 ⟨0, 0, [], stateModZero⟩ =
      .panicked "attempt to calculate the remainder with a divisor of zero" := by
  refine ⟨rfl, rfl, rfl, rfl⟩

/-! ### Claim C5: integer arithmetic wraps mod 2^64 -/

/-- Claim C5: `AddInt`, `MinusInt`, `MulInt` and `NegInt` store the
two's-complement wrap of the mathematical result: the stored value is
congruent to the exact result mod `2^64` and lies in `[-2^63, 2^63)`,
including on overflow. -/
theorem int_arith_wraps (p : Prog) (c : Config) :
    (∀ res l r, fetch p c = some (Instr.AddInt res l r) →
      ∃ c', step p c = .next c' ∧
        getInt c'.st res % 2 ^ 64 = (getInt c.st l + getInt c.st r) % 2 ^ 64 ∧
        -(2 ^ 63) ≤ getInt c'.st res ∧ getInt c'.st res < 2 ^ 63) ∧
    (∀ res l r, fetch p c = some (Instr.MinusInt res l r) →
      ∃ c', step p c = .next c' ∧
        getInt c'.st res % 2 ^ 64 = (getInt c.st l - getInt c.st r) % 2 ^ 64 ∧
        -(2 ^ 63) ≤ getInt c'.st res ∧ getInt c'.st res < 2 ^ 63) ∧
    (∀ res l r, fetch p c = some (Instr.MulInt res l r) →
      ∃ c', step p c = .next c' ∧
        getInt c'.st res % 2 ^ 64 = (getInt c.st l * getInt c.st r) % 2 ^ 64 ∧
        -(2 ^ 63) ≤ getInt c'.st res ∧ getInt c'.st res < 2 ^ 63) ∧
    (∀ res i, fetch p c = some (Instr.NegInt res i) →
      ∃ c', step p c = .next c' ∧
        getInt c'.st res % 2 ^ 64 = -getInt c.st i % 2 ^ 64 ∧
        -(2 ^ 63) ≤ getInt c'.st res ∧ getInt c'.st res < 2 ^ 63) := by
  refine ⟨?_, ?_, ?_, ?_⟩
  · intro res l r hf
    refine ⟨advance c (setInt c.st res (rustAdd (getInt c.st l) (getInt c.st r))),
      by simp [step, hf], ?_, ?_, ?_⟩ <;>
      simp only [advance] <;> rw [getInt_setInt_self] <;> unfold rustAdd
    · exact wrap64_emod _
    · exact wrap64_lb _
    · exact wrap64_ub _
  · intro res l r hf
    refine ⟨advance c (setInt c.st res (rustSub (getInt c.st l) (getInt c.st r))),
      by simp [step, hf], ?_, ?_, ?_⟩ <;>
      simp only [advance] <;> rw [getInt_setInt_self] <;> unfold rustSub
    · exact wrap64_emod _
    · exact wrap64_lb _
    · exact wrap64_ub _
  · intro res l r hf
    refine ⟨advance c (setInt c.st res (rustMul (getInt c.st l) (getInt c.st r))),
      by simp [step, hf], ?_, ?_, ?_⟩ <;>
      simp only [advance] <;> rw [getInt_setInt_self] <;> unfold rustMul
    · exact wrap64_emod _
    · exact wrap64_lb _
    · exact wrap64_ub _
  · intro res i hf
    refine ⟨advance c (setInt c.st res (rustNeg (getInt c.st i))),
      by simp [step, hf], ?_, ?_, ?_⟩ <;>
      simp only [advance] <;> rw [getInt_setInt_self] <;> unfold rustNeg
    · exact wrap64_emod _
    · exact wrap64_lb _
    · exact wrap64_ub _

theorem int_arith_wraps_witness :
    ∃ c', step [[Instr.AddInt 0 1 2, Instr.Halt]] ⟨0, 0, [], stateOverflow⟩ = .next c' ∧
      getInt c'.st 0 % 2 ^ 64 =
        (getInt stateOverflow 1 + getInt stateOverflow 2) % 2 ^ 64 ∧
      -(2 ^ 63) ≤ getInt c'.st 0 ∧ getInt c'.st 0 < 2 ^ 63 :=
  (int_arith_wraps [[Instr.AddInt 0 1 2, Instr.Halt]] ⟨0, 0, [], stateOverflow⟩).1
    0 1 2 rfl

/-! ### Claim C1: write errors terminate the run loop successfully -/

/-- Claim C1: for every `PrintStdout`, `Print` or `Printf` opcode whose
underlying write returns an I/O error, the dispatch loop returns `Ok`
immediately: the step is a successful termination and no further opcode
executes (the run result is success regardless of the rest of the program). -/
theorem write_error_exits_ok (p : Prog) (c : Config) :
    (∀ txt, fetch p c = some (Instr.PrintStdout txt) →
      write_str_stdout c.st.writeFiles (getStr c.st txt) = .error () →
      step p c = .done (.ok ()) ∧
        ∀ n, run p (n + 1) c = .finished (.ok ())) ∧
    (∀ txt out append, fetch p c = some (Instr.Print txt out append) →
      write_str c.st.writeFiles (getStr c.st out) (getStr c.st txt) append = .error () →
      step p c = .done (.ok ()) ∧
        ∀ n, run p (n + 1) c = .finished (.ok ())) ∧
    (∀ output fmt args fargs, fetch p c = some (Instr.Printf output fmt args) →
      formatArgs c.st args = .ok fargs →
      printfWriteRes c.st output (printfRender (getStr c.st fmt) fargs) = .error () →
      step p c = .done (.ok ()) ∧
        ∀ n, run p (n + 1) c = .finished (.ok ())) := by
  refine ⟨?_, ?_, ?_⟩
  · intro txt hf hw
    have h1 : step p c = .done (.ok ()) := by simp [step, hf, hw]
    exact ⟨h1, fun n => by simp [run, h1]⟩
  · intro txt out append hf hw
    have h1 : step p c = .done (.ok ()) := by simp [step, hf, hw]
    exact ⟨h1, fun n => by simp [run, h1]⟩
  · intro output fmt args fargs hf ha hw
    have h1 : step p c = .done (.ok ()) := by simp [step, hf, ha, hw]
    exact ⟨h1, fun n => by simp [run, h1]⟩

theorem write_error_exits_ok_witness :
    step [[Instr.PrintStdout 0, Instr.Halt]] ⟨0, 0, [], stateBrokenPipe⟩ =
      .done (.ok ()) ∧
    run [[Instr.PrintStdout 0, Instr.Halt]] 3 ⟨0, 0, [], stateBrokenPipe⟩ =
      .finished (.ok ()) :=
  ⟨((write_error_exits_ok [[Instr.PrintStdout 0, Instr.Halt]]
      ⟨0, 0, [], stateBrokenPipe⟩).1 0 rfl rfl).1,
   ((write_error_exits_ok [[Instr.PrintStdout 0, Instr.Halt]]
      ⟨0, 0, [], stateBrokenPipe⟩).1 0 rfl rfl).2 2⟩

/-! ### Claim C8: NextFile resets per-file variables -/

/-- Claim C8: executing `NextFile` advances the reader and immediately
resets the per-file record counter (`FNR`) to 0 and the filename variable to
the reader's new current filename — the reset is part of the `NextFile` step
itself, so it has happened before any subsequent `NextLine*` opcode runs. -/
theorem nextFile_resets_vars (p : Prog) (c : Config)
    (hf : fetch p c = some Instr.NextFile) :
    ∃ c', step p c = .next c' ∧
      c'.st.vars.fnr = 0 ∧
      c'.st.vars.filename = stdin_filename (next_file c.st.readFiles) ∧
      c'.st.readFiles = next_file c.st.readFiles ∧
      c'.cur = c.cur + 1 ∧ c'.curFn = c.curFn := by
  have h1 : step p c = .next (advance c (reset_file_vars
      { c.st with readFiles := next_file c.st.readFiles })) := by
    simp [step, hf]
  exact ⟨_, h1, rfl, rfl, rfl, rfl, rfl⟩

theorem nextFile_resets_vars_witness :
    ∃ c', step [[Instr.NextFile, Instr.Halt]] ⟨0, 0, [], stateReading⟩ = .next c' ∧
      c'.st.vars.fnr = 0 ∧
      c'.st.vars.filename = stdin_filename (next_file stateReading.readFiles) ∧
      c'.st.readFiles = next_file stateReading.readFiles ∧
      c'.cur = 0 + 1 ∧ c'.curFn = 0 :=
  nextFile_resets_vars [[Instr.NextFile, Instr.Halt]] ⟨0, 0, [], stateReading⟩ rfl

/-! ### Claim C10: Lookup* does not auto-vivify -/

/-- Claim C10: executing any `Lookup*` opcode on a map `m` and key `k` leaves
`m` unchanged — the missing key is not inserted, the map's length is
unchanged, and every key absent before the lookup is still absent after it
(so a subsequent `Contains*` on `(m, k)` still computes 0). -/
theorem lookup_no_autovivify (p : Prog) (c : Config) :
    (∀ res arr k, fetch p c = some (Instr.LookupIntInt res arr k) →
      ∃ c', step p c = .next c' ∧
        getMapIntInt c'.st arr = getMapIntInt c.st arr ∧
        (getMapIntInt c'.st arr).length = (getMapIntInt c.st arr).length ∧
        ∀ kv, mapGet (getMapIntInt c.st arr) kv = none →
          mapGet (getMapIntInt c'.st arr) kv = none) ∧
    (∀ res arr k, fetch p c = some (Instr.LookupIntStr res arr k) →
      ∃ c', step p c = .next c' ∧
        getMapIntStr c'.st arr = getMapIntStr c.st arr ∧
        (getMapIntStr c'.st arr).length = (getMapIntStr c.st arr).length ∧
        ∀ kv, mapGet (getMapIntStr c.st arr) kv = none →
          mapGet (getMapIntStr c'.st arr) kv = none) ∧
    (∀ res arr k, fetch p c = some (Instr.LookupIntFloat res arr k) →
      ∃ c', step p c = .next c' ∧
        getMapIntFloat c'.st arr = getMapIntFloat c.st arr ∧
        (getMapIntFloat c'.st arr).length = (getMapIntFloat c.st arr).length ∧
        ∀ kv, mapGet (getMapIntFloat c.st arr) kv = none →
          mapGet (getMapIntFloat c'.st arr) kv = none) ∧
    (∀ res arr k, fetch p c = some (Instr.LookupStrInt res arr k) →
      ∃ c', step p c = .next c' ∧
        getMapStrInt c'.st arr = getMapStrInt c.st arr ∧
        (getMapStrInt c'.st arr).length = (getMapStrInt c.st arr).length ∧
        ∀ kv, mapGet (getMapStrInt c.st arr) kv = none →
          mapGet (getMapStrInt c'.st arr) kv = none) ∧
    (∀ res arr k, fetch p c = some (Instr.LookupStrStr res arr k) →
      ∃ c', step p c = .next c' ∧
        getMapStrStr c'.st arr = getMapStrStr c.st arr ∧
        (getMapStrStr c'.st arr).length = (getMapStrStr c.st arr).length ∧
        ∀ kv, mapGet (getMapStrStr c.st arr) kv = none →
          mapGet (getMapStrStr c'.st arr) kv = none) ∧
    (∀ res arr k, fetch p c = some (Instr.LookupStrFloat res arr k) →
      ∃ c', step p c = .next c' ∧
        getMapStrFloat c'.st arr = getMapStrFloat c.st arr ∧
        (getMapStrFloat c'.st arr).length = (getMapStrFloat c.st arr).length ∧
        ∀ kv, mapGet (getMapStrFloat c.st arr) kv = none →
          mapGet (getMapStrFloat c'.st arr) kv = none) := by
  refine ⟨?_, ?_, ?_, ?_, ?_, ?_⟩ <;> intro res arr k hf
  · exact ⟨advance c (setInt c.st res
      ((mapGet (getMapIntInt c.st arr) (getInt c.st k)).getD 0)),
      by simp [step, hf], rfl, rfl, fun kv h => h⟩
  · exact ⟨advance c (setStr c.st res
      ((mapGet (getMapIntStr c.st arr) (getInt c.st k)).getD "")),
      by simp [step, hf], rfl, rfl, fun kv h => h⟩
  · exact ⟨advance c (setFloat c.st res
      ((mapGet (getMapIntFloat c.st arr) (getInt c.st k)).getD 0)),
      by simp [step, hf], rfl, rfl, fun kv h => h⟩
  · exact ⟨advance c (setInt c.st res
      ((mapGet (getMapStrInt c.st arr) (getStr c.st k)).getD 0)),
      by simp [step, hf], rfl, rfl, fun kv h => h⟩
  · exact ⟨advance c (setStr c.st res
      ((mapGet (getMapStrStr c.st arr) (getStr c.st k)).getD "")),
      by simp [step, hf], rfl, rfl, fun kv h => h⟩
  · exact ⟨advance c (setFloat c.st res
      ((mapGet (getMapStrFloat c.st arr) (getStr c.st k)).getD 0)),
      by simp [step, hf], rfl, rfl, fun kv h => h⟩

theorem lookup_no_autovivify_witness :
    ∃ c', step [[Instr.LookupIntInt 0 0 0, Instr.Halt]] ⟨0, 0, [], stateLookup⟩ = .next c' ∧
      getMapIntInt c'.st 0 = getMapIntInt stateLookup 0 ∧
      (getMapIntInt c'.st 0).length = (getMapIntInt stateLookup 0).length ∧
      ∀ kv, mapGet (getMapIntInt stateLookup 0) kv = none →
        mapGet (getMapIntInt c'.st 0) kv = none :=
  (lookup_no_autovivify [[Instr.LookupIntInt 0 0 0, Instr.Halt]]
    ⟨0, 0, [], stateLookup⟩).1 0 0 0 rfl

/-! ### Claim C7: non-scalar printf arguments are a recoverable error -/

theorem format_arg_ok_of_scalar (st : MachState) (a : Nat × Ty)
    (h : a.2.isScalar = true) : ∃ x, format_arg st a = .ok x := by
  rcases a with ⟨i, ty⟩
  cases ty <;> first
    | exact ⟨_, rfl⟩
    | simp [Ty.isScalar] at h

theorem format_arg_error_of_nonscalar (st : MachState) (a : Nat × Ty)
    (h : a.2.isScalar = false) :
    format_arg st a = .error "non-scalar (s)printf argument type" := by
  rcases a with ⟨i, ty⟩
  cases ty <;> first
    | rfl
    | simp [Ty.isScalar] at h

theorem formatArgs_ok_of_scalar (st : MachState) (args : List (Nat × Ty))
    (h : ∀ a ∈ args, a.2.isScalar = true) :
    ∃ l, formatArgs st args = .ok l := by
  induction args with
  | nil => exact ⟨[], rfl⟩
  | cons hd tl ih =>
    obtain ⟨x, hx⟩ := format_arg_ok_of_scalar st hd (h hd (List.mem_cons_self _ _))
    obtain ⟨l, hl⟩ := ih (fun a ha => h a (List.mem_cons_of_mem _ ha))
    exact ⟨x :: l, by simp [formatArgs, hx, hl]⟩

theorem formatArgs_error_of_nonscalar (st : MachState) (args : List (Nat × Ty))
    (h : ∃ a ∈ args, a.2.isScalar = false) :
    ∃ e, formatArgs st args = .error e := by
  induction args with
  | nil => simp at h
  | cons hd tl ih =>
    by_cases hhd : hd.2.isScalar = true
    · obtain ⟨x, hx⟩ := format_arg_ok_of_scalar st hd hhd
      have htl : ∃ a ∈ tl, a.2.isScalar = false := by
        rcases h with ⟨a, ha, hns⟩
        rcases List.mem_cons.mp ha with rfl | hmem
        · rw [hhd] at hns; cases hns
        · exact ⟨a, hmem, hns⟩
      obtain ⟨e, he⟩ := ih htl
      refine ⟨e, ?_⟩
      simp [formatArgs, hx, he]
    · have hhd' : hd.2.isScalar = false := by
        cases hv : hd.2.isScalar
        · rfl
        · exact absurd hv hhd
      have he := format_arg_error_of_nonscalar st hd hhd'
      exact ⟨"non-scalar (s)printf argument type", by simp [formatArgs, he]⟩

/-- Claim C7: for `Printf` and `Sprintf`, an argument whose type is not one
of Int, Float, Str (i.e. a map or iterator type) makes the opcode return a
recoverable error that propagates out of the dispatch loop and yields a
nonzero exit status; with all-scalar arguments no such error is raised. -/
theorem printf_nonscalar_type_error (p : Prog) (c : Config) :
    (∀ dst fmt args, fetch p c = some (Instr.Sprintf dst fmt args) →
      ((∃ a ∈ args, a.2.isScalar = false) →
        ∃ e, step p c = .done (.error e) ∧ exitStatus (.error e) ≠ 0 ∧
          ∀ n, run p (n + 1) c = .finished (.error e)) ∧
      ((∀ a ∈ args, a.2.isScalar = true) → ∃ c', step p c = .next c')) ∧
    (∀ output fmt args, fetch p c = some (Instr.Printf output fmt args) →
      ((∃ a ∈ args, a.2.isScalar = false) →
        ∃ e, step p c = .done (.error e) ∧ exitStatus (.error e) ≠ 0 ∧
          ∀ n, run p (n + 1) c = .finished (.error e)) ∧
      ((∀ a ∈ args, a.2.isScalar = true) →
        (∃ c', step p c = .next c') ∨ step p c = .done (.ok ()))) := by
  constructor
  · intro dst fmt args hf
    constructor
    · intro hns
      obtain ⟨e, he⟩ := formatArgs_error_of_nonscalar c.st args hns
      have h1 : step p c = .done (.error e) := by simp [step, hf, he]
      exact ⟨e, h1, by simp [exitStatus], fun n => by simp [run, h1]⟩
    · intro hsc
      obtain ⟨l, hl⟩ := formatArgs_ok_of_scalar c.st args hsc
      exact ⟨advance c (setStr c.st dst (printfRender (getStr c.st fmt) l)),
        by simp [step, hf, hl]⟩
  · intro output fmt args hf
    constructor
    · intro hns
      obtain ⟨e, he⟩ := formatArgs_error_of_nonscalar c.st args hns
      have h1 : step p c = .done (.error e) := by simp [step, hf, he]
      exact ⟨e, h1, by simp [exitStatus], fun n => by simp [run, h1]⟩
    · intro hsc
      obtain ⟨l, hl⟩ := formatArgs_ok_of_scalar c.st args hsc
      cases hw : printfWriteRes c.st output (printfRender (getStr c.st fmt) l) with
      | error e => right; simp [step, hf, hl, hw]
      | ok w' =>
        left
        exact ⟨advance c { c.st with writeFiles := w' }, by simp [step, hf, hl, hw]⟩

theorem printf_nonscalar_type_error_witness :
    (∃ e, step progSprintfBad ⟨0, 0, [], stateFmt⟩ = .done (.error e) ∧
      exitStatus (.error e) ≠ 0 ∧
      ∀ n, run progSprintfBad (n + 1) ⟨0, 0, [], stateFmt⟩ = .finished (.error e)) ∧
    (∃ c', step progSprintfOk ⟨0, 0, [], stateFmt⟩ = .next c') :=
  ⟨((printf_nonscalar_type_error progSprintfBad ⟨0, 0, [], stateFmt⟩).1
      0 1 [(0, Ty.MapIntInt)] rfl).1 (by decide),
   ((printf_nonscalar_type_error progSprintfOk ⟨0, 0, [], stateFmt⟩).1
      0 1 [(0, Ty.Int)] rfl).2 (by decide)⟩

/-! ### Claim C9: the Rand stream after Srand is a function of the seed -/

theorem getFloat_randOp_self (st : MachState) (dst : Nat) :
    getFloat (randOp st dst) dst = (rngNext st.rng).1 := by
  simp [randOp, getFloat, setFloat]

theorem randOp_rng (st : MachState) (dst : Nat) :
    (randOp st dst).rng = (rngNext st.rng).2 := rfl

theorem srandOp_rng (st : MachState) (res seed : Nat) :
    (srandOp st res seed).rng = seed_from_u64 (castU64 (getInt st seed)) := rfl

theorem randOutputs_congr_rng (dst : Nat) :
    ∀ (n : Nat) (s t : MachState), s.rng = t.rng →
      randOutputs s dst n = randOutputs t dst n := by
  intro n
  induction n with
  | zero => intro s t _; rfl
  | succ m ih =>
    intro s t h
    simp only [randOutputs]
    rw [getFloat_randOp_self, getFloat_randOp_self, h]
    exact congrArg (List.cons _)
      (ih (randOp s dst) (randOp t dst) (by rw [randOp_rng, randOp_rng, h]))

theorem rngNext_nonneg (r : RngState) : 0 ≤ (rngNext r).1 := by
  simp only [rngNext]
  positivity

theorem rngNext_lt_one (r : RngState) : (rngNext r).1 < 1 := by
  simp only [rngNext]
  rw [div_lt_one (by positivity)]
  have h : rngAdvance r.state % 2 ^ 53 < 2 ^ 53 :=
    Nat.mod_lt _ (by norm_num)
  exact_mod_cast h

theorem randOutputs_range (dst : Nat) :
    ∀ (n : Nat) (st : MachState) (v : FFloat), v ∈ randOutputs st dst n →
      0 ≤ v ∧ v < 1 := by
  intro n
  induction n with
  | zero => intro st v h; cases h
  | succ m ih =>
    intro st v h
    simp only [randOutputs, List.mem_cons] at h
    rcases h with rfl | h
    · rw [getFloat_randOp_self]
      exact ⟨rngNext_nonneg _, rngNext_lt_one _⟩
    · exact ih _ v h

/-- Claim C9: after `Srand` with operand `k`, the stream of floats produced
by any subsequent sequence of `Rand` opcodes is a deterministic function of
`k` alone — two machines agreeing only on the seed register produce
identical streams, each element lying in `[0, 1)`. The last two conjuncts
tie `srandOp`/`randOp` to the `Srand`/`Rand` opcodes of the dispatch loop. -/
theorem srand_rand_deterministic (s₁ s₂ : MachState)
    (res₁ res₂ seed₁ seed₂ dst : Nat) (k : Int)
    (h₁ : getInt s₁ seed₁ = k) (h₂ : getInt s₂ seed₂ = k) :
    (∀ n, randOutputs (srandOp s₁ res₁ seed₁) dst n
        = randOutputs (srandOp s₂ res₂ seed₂) dst n) ∧
    (∀ n v, v ∈ randOutputs (srandOp s₁ res₁ seed₁) dst n → 0 ≤ v ∧ v < 1) ∧
    (∀ p c, fetch p c = some (Instr.Srand res₁ seed₁) →
      step p c = .next (advance c (srandOp c.st res₁ seed₁))) ∧
    (∀ p c, fetch p c = some (Instr.Rand dst) →
      step p c = .next (advance c (randOp c.st dst))) := by
  refine ⟨?_, ?_, ?_, ?_⟩
  · intro n
    apply randOutputs_congr_rng
    rw [srandOp_rng, srandOp_rng, h₁, h₂]
  · intro n v h
    exact randOutputs_range dst n _ v h
  · intro p c hf
    simp [step, hf]
  · intro p c hf
    simp [step, hf]

theorem srand_rand_deterministic_witness :
    randOutputs (srandOp stateRngA 0 1) 2 3 = randOutputs (srandOp stateRngB 0 1) 2 3 :=
  (srand_rand_deterministic stateRngA stateRngB 0 0 1 1 2 42 rfl rfl).1 3

/-! ### Claim C2: split clears the map and counts by length delta -/

theorem insertPiecesInt_length (l : List FStr) :
    ∀ start : Int, (insertPiecesInt start l).length = l.length := by
  induction l with
  | nil => intro start; rfl
  | cons hd tl ih => intro start; simp [insertPiecesInt, ih]

theorem insertPiecesStr_length (l : List FStr) :
    ∀ start : Int, (insertPiecesStr start l).length = l.length := by
  induction l with
  | nil => intro start; rfl
  | cons hd tl ih => intro start; simp [insertPiecesStr, ih]

theorem mapGet_insertPiecesInt (l : List FStr) :
    ∀ (start : Int) (i : Nat), i < l.length →
      mapGet (insertPiecesInt start l) (start + (i : Int)) = l.get? i := by
  induction l with
  | nil => intro start i h; simp at h
  | cons hd tl ih =>
    intro start i h
    cases i with
    | zero => simp [insertPiecesInt, mapGet]
    | succ j =>
      have hne : start + ((j + 1 : Nat) : Int) ≠ start := by push_cast; omega
      have hkey : start + ((j + 1 : Nat) : Int) = (start + 1) + (j : Int) := by
        push_cast; ring
      simp only [insertPiecesInt, mapGet, if_neg hne]
      rw [hkey]
      have htl := ih (start + 1) j (by simpa using h)
      simpa using htl

/-- Claim C2 (amended): `SplitInt`/`SplitStr` clear the destination map and
insert the n pieces of the subject under the keys 1..n (decimal strings for
the string-keyed variant), but the result register receives the length
delta: n minus the map's prior size — equal to n exactly when the
destination was empty, as after the clear the compiler emits before a split.
(The size bounds, amply satisfied by any in-memory map, keep the usize
subtraction and the i64 cast value-preserving.) -/
theorem split_clear_insert_delta (p : Prog) (c : Config) :
    (∀ flds ts arr pat, fetch p c = some (Instr.SplitInt flds ts arr pat) →
      ((getMapIntStr c.st arr).length : Int) < 2 ^ 62 →
      ((splitPieces (getStr c.st pat) (getStr c.st ts)).length : Int) < 2 ^ 62 →
      ∃ c', step p c = .next c' ∧
        getMapIntStr c'.st arr
          = split_to_map_int (getStr c.st pat) (getStr c.st ts) ∧
        (getMapIntStr c'.st arr).length
          = (splitPieces (getStr c.st pat) (getStr c.st ts)).length ∧
        (∀ i : Nat, i < (splitPieces (getStr c.st pat) (getStr c.st ts)).length →
          mapGet (getMapIntStr c'.st arr) (1 + (i : Int))
            = (splitPieces (getStr c.st pat) (getStr c.st ts)).get? i) ∧
        getInt c'.st flds
          = ((splitPieces (getStr c.st pat) (getStr c.st ts)).length : Int)
            - ((getMapIntStr c.st arr).length : Int)) ∧
    (∀ flds ts arr pat, fetch p c = some (Instr.SplitStr flds ts arr pat) →
      ((getMapStrStr c.st arr).length : Int) < 2 ^ 62 →
      ((splitPieces (getStr c.st pat) (getStr c.st ts)).length : Int) < 2 ^ 62 →
      ∃ c', step p c = .next c' ∧
        getMapStrStr c'.st arr
          = split_to_map_str (getStr c.st pat) (getStr c.st ts) ∧
        (getMapStrStr c'.st arr).length
          = (splitPieces (getStr c.st pat) (getStr c.st ts)).length ∧
        getInt c'.st flds
          = ((splitPieces (getStr c.st pat) (getStr c.st ts)).length : Int)
            - ((getMapStrStr c.st arr).length : Int)) := by
  constructor
  · intro flds ts arr pat hf hm hn
    refine ⟨advance c (setInt
        (setMapIntStr c.st arr (split_to_map_int (getStr c.st pat) (getStr c.st ts)))
        flds
        (wrap64 (((split_to_map_int (getStr c.st pat) (getStr c.st ts)).length : Int)
          - ((getMapIntStr c.st arr).length : Int)))),
      by simp [step, hf], ?_, ?_, ?_, ?_⟩
    · show getMapIntStr (setInt (setMapIntStr c.st arr _) flds _) arr = _
      exact getMapIntStr_setMapIntStr_self c.st arr _
    · show (getMapIntStr (setMapIntStr c.st arr _) arr).length = _
      rw [getMapIntStr_setMapIntStr_self]
      exact insertPiecesInt_length _ 1
    · intro i hi
      show mapGet (getMapIntStr (setMapIntStr c.st arr _) arr) _ = _
      rw [getMapIntStr_setMapIntStr_self]
      exact mapGet_insertPiecesInt _ 1 i hi
    · show getInt (setInt (setMapIntStr c.st arr _) flds _) flds = _
      rw [getInt_setInt_self]
      have hlen : ((split_to_map_int (getStr c.st pat) (getStr c.st ts)).length : Int)
          = ((splitPieces (getStr c.st pat) (getStr c.st ts)).length : Int) := by
        simp [split_to_map_int, insertPiecesInt_length]
      rw [hlen]
      exact wrap64_eq_self _ (by omega) (by omega)
  · intro flds ts arr pat hf hm hn
    refine ⟨advance c (setInt
        (setMapStrStr c.st arr (split_to_map_str (getStr c.st pat) (getStr c.st ts)))
        flds
        (wrap64 (((split_to_map_str (getStr c.st pat) (getStr c.st ts)).length : Int)
          - ((getMapStrStr c.st arr).length : Int)))),
      by simp [step, hf], ?_, ?_, ?_⟩
    · show getMapStrStr (setInt (setMapStrStr c.st arr _) flds _) arr = _
      exact getMapStrStr_setMapStrStr_self c.st arr _
    · show (getMapStrStr (setMapStrStr c.st arr _) arr).length = _
      rw [getMapStrStr_setMapStrStr_self]
      exact insertPiecesStr_length _ 1
    · show getInt (setInt (setMapStrStr c.st arr _) flds _) flds = _
      rw [getInt_setInt_self]
      have hlen : ((split_to_map_str (getStr c.st pat) (getStr c.st ts)).length : Int)
          = ((splitPieces (getStr c.st pat) (getStr c.st ts)).length : Int) := by
        simp [split_to_map_str, insertPiecesStr_length]
      rw [hlen]
      exact wrap64_eq_self _ (by omega) (by omega)

/-- Claim C2 counterexample: splitting `"a:b"` on `":"` produces 2 pieces,
but executed over a pre-populated destination map of size 1 the result
register receives the delta 1, not the piece count 2 that the claim states
for every prior content of the map. -/
theorem split_count_counterexample :
    ∃ c', step progSplit ⟨0, 0, [], stateSplitPre⟩ = .next c' ∧
      (splitPieces ":" "a:b").length = 2 ∧
      getInt c'.st 2 = 1 ∧ (1 : Int) ≠ 2 :=
  ⟨_, rfl, by decide, by decide, by decide⟩

theorem split_clear_insert_delta_witness :
    ∃ c', step progSplit ⟨0, 0, [], stateSplitEmpty⟩ = .next c' ∧
      getMapIntStr c'.st 0 = split_to_map_int ":" "a:b" ∧
      (getMapIntStr c'.st 0).length = (splitPieces ":" "a:b").length ∧
      (∀ i : Nat, i < (splitPieces ":" "a:b").length →
        mapGet (getMapIntStr c'.st 0) (1 + (i : Int))
          = (splitPieces ":" "a:b").get? i) ∧
      getInt c'.st 2 = ((splitPieces ":" "a:b").length : Int)
        - ((getMapIntStr stateSplitEmpty 0).length : Int) :=
  (split_clear_insert_delta progSplit ⟨0, 0, [], stateSplitEmpty⟩).1
    2 0 0 1 rfl (by decide) (by decide)

/-! ### Claim C6: Substr clamping -/

theorem substrOp_eq_spec (base : FStr) (l r : Int)
    (hl₁ : -(2 ^ 63) < l) (hl₂ : l < 2 ^ 63)
    (hr₁ : 0 ≤ r) (hr₂ : r < 2 ^ 63) :
    substrOp base l r = specSubstr base l r := by
  unfold substrOp specSubstr strSlice
  have hw : rustAdd (-1) l = -1 + l := by unfold rustAdd wrap64; omega
  rw [hw]
  have hlen : (0 : Int) ≤ (base.length : Int) := Int.ofNat_nonneg _
  have hcast : castU64 (min ((base.length : Int)) r)
      = (min ((base.length : Int)) r).toNat := by
    unfold castU64; omega
  rw [hcast]
  by_cases h : min r ((base.length : Int)) < max l 1
  · rw [if_pos h]
    have hz : (min ((base.length : Int)) r).toNat - (max 0 (-1 + l)).toNat = 0 := by
      omega
    rw [hz]
    rfl
  · rw [if_neg h]
    have h2 : (min ((base.length : Int)) r).toNat - (max 0 (-1 + l)).toNat
        = (min r ((base.length : Int)) - max l 1 + 1).toNat := by omega
    have h1 : (max 0 (-1 + l)).toNat = (max l 1).toNat - 1 := by omega
    rw [h2, h1]

/-- Claim C6 (amended): for every string and all `i64` operands `l`, `r`
with `l > -2^63` (so the internal `l - 1` does not wrap) and `0 ≤ r` (so the
clamped end is nonnegative and its `as usize` cast is value-preserving),
`Substr` stores the bytes from position `max(l, 1)` to `min(r, len)`
inclusive (1-based), and the empty string when the clamped start exceeds the
clamped end. -/
theorem substr_clamps (p : Prog) (c : Config) (res base l r : Nat)
    (hf : fetch p c = some (Instr.Substr res base l r))
    (hl₁ : -(2 ^ 63) < getInt c.st l) (hl₂ : getInt c.st l < 2 ^ 63)
    (hr₁ : 0 ≤ getInt c.st r) (hr₂ : getInt c.st r < 2 ^ 63) :
    ∃ c', step p c = .next c' ∧
      getStr c'.st res
        = specSubstr (getStr c.st base) (getInt c.st l) (getInt c.st r) := by
  refine ⟨advance c (setStr c.st res
      (substrOp (getStr c.st base) (getInt c.st l) (getInt c.st r))),
    by simp [step, hf], ?_⟩
  show getStr (setStr c.st res _) res = _
  rw [getStr_setStr_self]
  exact substrOp_eq_spec _ _ _ hl₁ hl₂ hr₁ hr₂

/-- Claim C6 counterexample: at `l = 1`, `r = -1` over `"abc"` the clamped
start (1) exceeds the clamped end (-1), so the claim prescribes the empty
string; but `min(len, -1) as usize` wraps to a huge unsigned value and the
opcode stores the whole suffix `"abc"`. -/
theorem substr_counterexample :
    ∃ c', step progSubstr ⟨0, 0, [], stateSubstrNeg⟩ = .next c' ∧
      getStr c'.st 1 = "abc" ∧
      specSubstr "abc" 1 (-1) = "" ∧ ("abc" : FStr) ≠ "" :=
  ⟨_, rfl, by decide, by decide, by decide⟩

theorem substr_clamps_witness :
    ∃ c', step progSubstr ⟨0, 0, [], stateSubstrOk⟩ = .next c' ∧
      getStr c'.st 1 = specSubstr "hello" 2 4 :=
  substr_clamps progSubstr ⟨0, 0, [], stateSubstrOk⟩ 1 0 0 1 rfl
    (by decide) (by decide) (by decide) (by decide)

end Frawk
